import Mathlib

/-!
Verification of the block-following scheduler in `src/src/index.ts`
(the current revision of the file: `processBlock` at lines 273-317,
`startScheduler` at lines 319-436, `main` at lines 438-478).

The scheduler is embedded shallowly: every RPC round trip is an oracle
value describing how the call settled, asynchronous fan-out is modelled
by lists of settled outcomes together with settle instants, and the
`while` loop becomes a fuel-indexed step function over an explicit
state.  JS numbers that only ever hold integers (block heights, epoch
milliseconds, counters) are modelled as `Int`; the floating-point
divisions of the final report are modelled over `Rat`.
-/

set_option autoImplicit false
set_option linter.unusedVariables false

namespace RpcTest

/-- Failure record (src lines 268-271): a free-text reason and the
`Date.now()` instant at which the rejection was recorded. -/
structure Failure where
  reason : String
  timestamp : Int
  deriving DecidableEq

/-- Per-loop configuration (src lines 247-254).  `startBlockNumber` is
optional and resolved to the tip at start when absent (src line 359). -/
structure TestConfig where
  startTimeMs : Int
  startBlockNumber : Option Int
  finishBlockNumber : Option Int
  targetRunningTimeMs : Option Int
  rpcUrl : String
  batchSize : Int

/-- Result record returned at loop exit (src lines 256-266, 425-435). -/
structure TestResult where
  idx : Int
  calls : Int
  failCalls : Int
  retryCalls : Int
  finishTimeMs : Int
  startBlockNumber : Int
  finishBlockNumber : Int
  totalCallMs : Int
  rpcUrl : String
  deriving DecidableEq

/-- Mutable counters owned by one scheduler loop (src lines 323-328).
JS numbers, hence `Int`; they are only ever incremented. -/
structure Counters where
  totalReqs : Int
  totalCalls : Int
  totalCallMs : Int
  failCalls : Int
  timeoutCalls : Int
  retryCalls : Int
  deriving DecidableEq

/-- Instrumentation hooks (src lines 330-343): `preflightFunc` stamps the
start time and counts the request; `processFunc` runs when a response is
processed and then adds one completed call and its elapsed time.  For a
call that never yields a processed response (for example a 10 s timeout)
only the preflight side runs, so `completed` is oracle data for failed
calls; calls that succeed always completed their exchange. -/
def noteCall (completed : Bool) (ms : Int) (c : Counters) : Counters :=
  { c with
    totalReqs := c.totalReqs + 1,
    totalCalls := c.totalCalls + (if completed then 1 else 0),
    totalCallMs := c.totalCallMs + (if completed then ms else 0) }

/-- Retry hook (src lines 345-355): the body is `return false` followed by
an unreachable 429 branch, so the hook declines every resend. -/
def retryFunc (statusCode : Int) (attempt : Int) : Bool :=
  false

/-- Outcome of one `getTransactionReceipt` promise, as observed by the
`Promise.allSettled` join in `processBlock` (src line 302). -/
inductive ReceiptResult where
  | fulfilled
  | rejected (reason : String)
  deriving DecidableEq

/-- Block payload as used by the scheduler: only its transaction hashes
(src line 283). -/
structure Block where
  transactions : List String
  deriving DecidableEq

/-- Settled receipt outcomes for the fan-out over `txs` (src lines
286-302): one outcome per transaction index, in index order. -/
def settledReceipts (txs : List String) (f : Nat → ReceiptResult) : List ReceiptResult :=
  (List.range txs.length).map f

/-- Collection loop over the settled receipt outcomes (src lines 303-308):
each rejected outcome is pushed as one `Failure` stamped with the clock
value at its loop index. -/
def collectFails : List ReceiptResult → (Nat → Int) → Nat → List Failure
  | [], _, _ => []
  | .fulfilled :: rest, clock, i => collectFails rest clock (i + 1)
  | .rejected e :: rest, clock, i =>
    { reason := e, timestamp := clock i } :: collectFails rest clock (i + 1)

/-- Error text of the explicit throw on a null block (src line 281). -/
def cantFindMsg (blockNumber : Int) : String :=
  "cannot find " ++ toString blockNumber ++ " block"

/-- Block processor (src lines 273-317).  `fetched` is the settled
outcome of `await provider.getBlock(blockNumber)`: a rejection of that
call propagates out of the function, a null block triggers the explicit
throw at line 281, and otherwise every rejected receipt fetch becomes one
failure record while the function returns normally.  Rejection reasons
are already strings in this model (the source applies `.toString()`). -/
def processBlock (blockNumber : Int) (fetched : Except String (Option Block))
    (f : Nat → ReceiptResult) (clock : Nat → Int) : Except String (List Failure) :=
  match fetched with
  | .error e => .error e
  | .ok none => .error (cantFindMsg blockNumber)
  | .ok (some b) => .ok (collectFails (settledReceipts b.transactions f) clock 0)

/-- Promise settled at instant `time` with `result` (value or rejection
reason). -/
structure Settled (α : Type) where
  time : Int
  result : Except String α

/-- Earliest rejection among a list of settled promises, earliest settle
time first and list order breaking ties. -/
def firstRejection {α : Type} : List (Settled α) → Option (Int × String)
  | [] => none
  | s :: rest =>
    match s.result with
    | .ok _ => firstRejection rest
    | .error e =>
      match firstRejection rest with
      | none => some (s.time, e)
      | some (t, e2) => if t < s.time then some (t, e2) else some (s.time, e)

/-- Instant at which a `Promise.all` over the list resolves when no entry
rejects. -/
def settleMax {α : Type} (l : List (Settled α)) : Int :=
  l.foldl (fun m s => max m s.time) 0

/-- Values of the fulfilled entries, in list order. -/
def okValues {α : Type} (l : List (Settled α)) : List α :=
  l.filterMap (fun s => s.result.toOption)

/-- Semantics of `await Promise.all(promises)` (src line 400): if every
promise fulfills, the join settles once the last one has, with one value
per promise; otherwise it rejects already at the earliest rejection,
carrying only that rejection and discarding every sibling outcome. -/
def promiseAll {α : Type} (l : List (Settled α)) : Settled (List α) :=
  match firstRejection l with
  | some (t, e) => { time := t, result := .error e }
  | none => { time := settleMax l, result := .ok (okValues l) }

/-- Oracle for the environment of one dispatched block: how the
`getBlock` call settled, whether a failed `getBlock` still completed an
HTTP exchange, the settled receipt outcomes, their instrumentation data,
the clock of the record-collection loop and the settle instant of the
whole `processBlock` promise. -/
structure BlockOracle where
  blockFetch : Except String (Option Block)
  fetchCompleted : Bool
  fetchMs : Int
  receiptRes : Nat → ReceiptResult
  receiptCompleted : Nat → Bool
  receiptMs : Nat → Int
  recClock : Nat → Int
  settleTime : Int

/-- Oracle for one iteration of the scheduler loop: the `Date.now()` at
the loop top, the settled outcome of `getBlockNumber`, its
instrumentation data, and one block oracle per batch index. -/
structure IterOracle where
  loopStartTime : Int
  pollResult : Except String Int
  pollCompleted : Bool
  pollMs : Int
  blockOf : Nat → BlockOracle

/-- Loop state: the counters, the current block pointer and a count of
iterations that reached the DISPATCHING stage (the latter is bookkeeping
of the model, the source keeps no such variable). -/
structure LoopState where
  counters : Counters
  curr : Int
  dispatchCount : Nat
  deriving DecidableEq

/-- Terminal outcomes of the loop: the two stop checks (src lines
365-375) and the `process.exit(1)` of the rollback branch (src line
384). -/
inductive StopKind where
  | finishReached
  | timeReached
  | rollbackExit
  deriving DecidableEq

/-- Result of one pass through the loop body. -/
inductive IterOut where
  | halt (kind : StopKind) (s : LoopState)
  | next (s : LoopState)

/-- State carried out of a pass, for both outcomes. -/
def outState : IterOut → LoopState
  | .halt _ s => s
  | .next s => s

/-- Whether a pass ended in the rollback exit. -/
def isRollbackHalt : IterOut → Bool
  | .halt .rollbackExit _ => true
  | _ => false

/-- Finish-block stop check (src line 365): configured and pointer past
it. -/
def finishReachedB (cfg : TestConfig) (curr : Int) : Bool :=
  match cfg.finishBlockNumber with
  | some f => decide (f < curr)
  | none => false

/-- Running-time stop check (src line 371): configured and elapsed wall
time at least the target. -/
def timeReachedB (cfg : TestConfig) (loopStartTime : Int) : Bool :=
  match cfg.targetRunningTimeMs with
  | some t => decide (t ≤ loopStartTime - cfg.startTimeMs)
  | none => false

/-- Substring test on character lists, for the JS `String.includes`. -/
def startsWithChars : List Char → List Char → Bool
  | [], _ => true
  | _ :: _, [] => false
  | p :: ps, c :: cs => p == c && startsWithChars ps cs

/-- Whether `pat` occurs as a contiguous run inside the list. -/
def hasSubChars (pat : List Char) : List Char → Bool
  | [] => startsWithChars pat []
  | c :: cs => startsWithChars pat (c :: cs) || hasSubChars pat cs

/-- JS `s.includes(pat)` (src line 406). -/
def includes (s pat : String) : Bool :=
  hasSubChars pat.data s.data

/-- Counting of one failure record (src lines 404-408): the fail counter
always, the timeout counter when the reason text contains "timeout". -/
def noteFailure (f : Failure) (c : Counters) : Counters :=
  { c with
    failCalls := c.failCalls + 1,
    timeoutCalls := c.timeoutCalls + (if includes f.reason "timeout" then 1 else 0) }

/-- Aggregation loop over the joined batch results (src lines 401-411). -/
def countFailures (results : List (List Failure)) (c : Counters) : Counters :=
  results.foldl (fun acc fails => fails.foldl (fun a f => noteFailure f a) acc) c

/-- Instrumentation effect of the calls issued by one dispatched block:
the `getBlock` call, then one receipt call per transaction when a block
was delivered.  A fulfilled call always ran `processFunc`; for a rejected
call the oracle says whether an exchange completed. -/
def receiptCalls (bo : BlockOracle) (k : Nat) (c : Counters) : Counters :=
  (List.range k).foldl (fun acc j =>
    match bo.receiptRes j with
    | .fulfilled => noteCall true (bo.receiptMs j) acc
    | .rejected _ => noteCall (bo.receiptCompleted j) (bo.receiptMs j) acc) c

/-- Calls of one dispatched block: `getBlock`, plus the receipt fan-out
when the block was delivered. -/
def blockCallsDelta (bo : BlockOracle) (c : Counters) : Counters :=
  match bo.blockFetch with
  | .ok (some b) => receiptCalls bo b.transactions.length (noteCall true bo.fetchMs c)
  | .ok none => noteCall true bo.fetchMs c
  | .error _ => noteCall bo.fetchCompleted bo.fetchMs c

/-- Batch width of the iteration (src line 394), zero outside the
dispatch branch. -/
def dispatchWidth (cfg : TestConfig) (io : IterOracle) (curr : Int) : Int :=
  if finishReachedB cfg curr then 0
  else if timeReachedB cfg io.loopStartTime then 0
  else match io.pollResult with
    | .error _ => 0
    | .ok latest => if curr ≥ latest then 0 else min cfg.batchSize (latest - curr)

/-- Block numbers handed to `processBlock` in one dispatch (src lines
396-398): `currBlockNumber + batchIdx + 1` for each batch index. -/
def batchNums (n : Nat) (curr : Int) : List Int :=
  (List.range n).map (fun i : Nat => curr + (i : Int) + 1)

/-- Settled outcome of the `processBlock` promise for batch index `i`. -/
def blockResult (io : IterOracle) (curr : Int) (i : Nat) : Except String (List Failure) :=
  processBlock (curr + (i : Int) + 1) (io.blockOf i).blockFetch
    (io.blockOf i).receiptRes (io.blockOf i).recClock

/-- Settled `processBlock` promises of one dispatch, in batch order. -/
def batchSettles (io : IterOracle) (n : Nat) (curr : Int) : List (Settled (List Failure)) :=
  (List.range n).map (fun i => { time := (io.blockOf i).settleTime, result := blockResult io curr i })

/-- Instrumentation effect of all calls issued by one dispatch. -/
def batchInstrument (io : IterOracle) (n : Nat) (c : Counters) : Counters :=
  (List.range n).foldl (fun acc i => blockCallsDelta (io.blockOf i) acc) c

/-- Milliseconds slept by the iteration: 200 only on the caught-up branch
(src line 390), never on a failure path. -/
def sleepMsOf (cfg : TestConfig) (io : IterOracle) (curr : Int) : Int :=
  if finishReachedB cfg curr then 0
  else if timeReachedB cfg io.loopStartTime then 0
  else match io.pollResult with
    | .error _ => 0
    | .ok latest => if curr ≥ latest then 200 else 0

/-- One pass through the scheduler loop body (src lines 363-424).  The
local `prevLatestBlockNumber` is declared inside the loop (src line 377),
so every pass compares the fresh value `0`; a rejected `getBlockNumber`
and a rejected batch join both land in the catch at line 421, which only
logs and lets the loop continue; otherwise the batch is dispatched, its
records are counted, and the pointer advances by the batch width. -/
def schedulerStep (cfg : TestConfig) (io : IterOracle) (s : LoopState) : IterOut :=
  if finishReachedB cfg s.curr then .halt .finishReached s
  else if timeReachedB cfg io.loopStartTime then .halt .timeReached s
  else
    let prevLatestBlockNumber : Int := 0
    match io.pollResult with
    | .error _ => .next { s with counters := noteCall io.pollCompleted io.pollMs s.counters }
    | .ok latest =>
      let c1 := noteCall true io.pollMs s.counters
      if prevLatestBlockNumber ≠ 0 ∧ prevLatestBlockNumber > latest then
        .halt .rollbackExit { s with counters := c1 }
      else if s.curr ≥ latest then
        .next { s with counters := c1 }
      else
        let n := (dispatchWidth cfg io s.curr).toNat
        let c2 := batchInstrument io n c1
        match (promiseAll (batchSettles io n s.curr)).result with
        | .error _ => .next { s with counters := c2, dispatchCount := s.dispatchCount + 1 }
        | .ok results =>
          .next { curr := s.curr + dispatchWidth cfg io s.curr,
                  counters := countFailures results c2,
                  dispatchCount := s.dispatchCount + 1 }

/-- Fuel-indexed run of the loop from iteration index `i`: `none` when
the fuel ran out with the loop still going, otherwise the stop kind
reached, in both cases together with the state at that point. -/
def runLoop (cfg : TestConfig) (trace : Nat → IterOracle) :
    Nat → Nat → LoopState → Option StopKind × LoopState
  | 0, _, s => (none, s)
  | fuel + 1, i, s =>
    match schedulerStep cfg (trace i) s with
    | .halt k sf => (some k, sf)
    | .next s2 => runLoop cfg trace fuel (i + 1) s2

/-- Fresh counters of a loop (src lines 323-328). -/
def initCounters : Counters :=
  { totalReqs := 0, totalCalls := 0, totalCallMs := 0,
    failCalls := 0, timeoutCalls := 0, retryCalls := 0 }

/-- State at loop entry, at the resolved starting block (src line 361). -/
def initState (startBlockNumber : Int) : LoopState :=
  { counters := initCounters, curr := startBlockNumber, dispatchCount := 0 }

/-- Result record built at loop exit (src lines 425-435). -/
def buildResult (idx : Int) (cfg : TestConfig) (startBlockNumber finishTimeMs : Int)
    (s : LoopState) : TestResult :=
  { idx := idx,
    calls := s.counters.totalCalls,
    failCalls := s.counters.failCalls,
    retryCalls := s.counters.retryCalls,
    finishTimeMs := finishTimeMs,
    startBlockNumber := startBlockNumber,
    finishBlockNumber := s.curr - 1,
    totalCallMs := s.counters.totalCallMs,
    rpcUrl := cfg.rpcUrl }

/-- Whole scheduler (src lines 319-436): resolve the starting block,
run the loop, and snapshot the counters into the result. -/
def startScheduler (idx : Int) (cfg : TestConfig) (tipAtStart : Int)
    (trace : Nat → IterOracle) (fuel : Nat) (finishTimeMs : Int) :
    Option StopKind × TestResult :=
  let startBlockNumber := cfg.startBlockNumber.getD tipAtStart
  let r := runLoop cfg trace fuel 0 (initState startBlockNumber)
  (r.1, buildResult idx cfg startBlockNumber finishTimeMs r.2)

/-- Figures of one rendered summary entry (src lines 463-476), with the
JS floating divisions taken over `Rat`. -/
structure SummaryLine where
  elapsedTimeSecs : Rat
  avgCallMs : Rat
  rps : Rat

/-- Summary rendering for one result (src lines 463-476): elapsed
seconds from the shared orchestration start time, average call time and
requests per second. -/
def renderSummary (startTimeMs : Int) (r : TestResult) : SummaryLine :=
  let elapsedTimeSecs : Rat := ((r.finishTimeMs - startTimeMs : Int) : Rat) / 1000
  { elapsedTimeSecs := elapsedTimeSecs,
    avgCallMs := (r.totalCallMs : Rat) / (r.calls : Rat),
    rps := (r.calls : Rat) / elapsedTimeSecs }

/-- Whether an `Except` is a raised (rejected) outcome. -/
def raised {α : Type} : Except String α → Bool
  | .error _ => true
  | .ok _ => false

/-- Whether a pass of the loop body continues into the next iteration. -/
def continues : IterOut → Bool
  | .next _ => true
  | .halt _ _ => false

/-- Reason of a rejected receipt outcome, if any. -/
def rejectedReason : ReceiptResult → Option String
  | .rejected e => some e
  | .fulfilled => none

/-- Reasons of the rejected outcomes, in order. -/
def rejectedReasons (l : List ReceiptResult) : List String :=
  l.filterMap rejectedReason

/-- Number of rejected outcomes in the list. -/
def countRejected (l : List ReceiptResult) : Nat :=
  (rejectedReasons l).length

/-- Componentwise order on the pure count counters (`totalCallMs` is an
accumulated duration, not a count, and is kept apart). -/
def Counters.CntLe (a b : Counters) : Prop :=
  a.totalReqs ≤ b.totalReqs ∧ a.totalCalls ≤ b.totalCalls ∧ a.failCalls ≤ b.failCalls ∧
    a.timeoutCalls ≤ b.timeoutCalls ∧ a.retryCalls ≤ b.retryCalls

/-- Non-negativity of the pure count counters. -/
def Counters.CntNonneg (a : Counters) : Prop :=
  0 ≤ a.totalReqs ∧ 0 ≤ a.totalCalls ∧ 0 ≤ a.failCalls ∧ 0 ≤ a.timeoutCalls ∧ 0 ≤ a.retryCalls

/-- Block oracle whose fetch delivers a block with the given transactions
and whose receipt fetches all fulfill. -/
def okBlockOracle (txs : List String) : BlockOracle :=
  { blockFetch := .ok (some { transactions := txs }),
    fetchCompleted := true, fetchMs := 1,
    receiptRes := fun _ => .fulfilled,
    receiptCompleted := fun _ => true,
    receiptMs := fun _ => 1,
    recClock := fun _ => 0,
    settleTime := 1 }

/-- Block oracle whose `getBlock` call rejects. -/
def errBlockOracle (msg : String) : BlockOracle :=
  { blockFetch := .error msg,
    fetchCompleted := false, fetchMs := 0,
    receiptRes := fun _ => .fulfilled,
    receiptCompleted := fun _ => true,
    receiptMs := fun _ => 0,
    recClock := fun _ => 0,
    settleTime := 1 }

/-- Block oracle whose fetch delivers the block but whose receipt fetches
all time out: rejected with a timeout reason and no processed response. -/
def timeoutBlockOracle (txs : List String) : BlockOracle :=
  { blockFetch := .ok (some { transactions := txs }),
    fetchCompleted := true, fetchMs := 1,
    receiptRes := fun _ => .rejected "Error: timeout (requestTimeout)",
    receiptCompleted := fun _ => false,
    receiptMs := fun _ => 0,
    recClock := fun _ => 50,
    settleTime := 10 }

/-- Iteration oracle with a fulfilled tip poll and the given blocks. -/
def pollOracle (latest : Int) (blocks : Nat → BlockOracle) : IterOracle :=
  { loopStartTime := 0, pollResult := .ok latest, pollCompleted := true, pollMs := 1,
    blockOf := blocks }

/-- Run-forever configuration with batch width 1 starting at block 100. -/
def cfgB1 : TestConfig :=
  { startTimeMs := 0, startBlockNumber := some 100, finishBlockNumber := none,
    targetRunningTimeMs := none, rpcUrl := "http://node.example", batchSize := 1 }

/-- Run-forever configuration with batch width 2. -/
def cfgB2 : TestConfig :=
  { cfgB1 with batchSize := 2 }

/-- Run-forever configuration with batch width 3. -/
def cfgB3 : TestConfig :=
  { cfgB1 with batchSize := 3 }

/-- Configuration of the two-batch stop scenario: batch width 2, finish
block 103 = 100 + 2*2 - 1, no time bound. -/
def cfgC7 : TestConfig :=
  { cfgB2 with finishBlockNumber := some 103 }

/-- Trace observing tip 1000 on the first poll and tip 998 on the second,
with every block fetch delivering an empty block. -/
def traceRollback : Nat → IterOracle :=
  fun i => pollOracle (if i = 0 then 1000 else 998) (fun _ => okBlockOracle [])

/-- Iteration oracle of the dispatch-interval scenario: pointer 100, tip
105, all fetches fulfilled. -/
def ioC2 : IterOracle :=
  pollOracle 105 (fun _ => okBlockOracle [])

/-- Iteration oracle of the timed-out-receipts scenario: tip 101, one
block of three transactions whose receipt fetches all time out. -/
def ioC5 : IterOracle :=
  pollOracle 101 (fun _ => timeoutBlockOracle ["a", "b", "c"])

/-- Iteration oracle of the mixed-batch scenario: tip 110, batch index 0
rejects its block fetch, batch index 1 delivers a block of one
transaction whose receipt fetch times out. -/
def ioC10 : IterOracle :=
  pollOracle 110 (fun i =>
    if i = 0 then errBlockOracle "Error: connection reset"
    else timeoutBlockOracle ["a"])

/-- Receipt oracle rejecting the even transaction indices. -/
def fOddEven : Nat → ReceiptResult :=
  fun i => if i % 2 = 0 then .rejected "Error: bad receipt" else .fulfilled

/-- Two settled block promises that both fulfill, at instants 3 and 9. -/
def lAllOk : List (Settled (List Failure)) :=
  [{ time := 3, result := .ok [] }, { time := 9, result := .ok [{ reason := "x", timestamp := 1 }] }]

/-- Two settled block promises: a rejection at instant 5 and a
fulfillment at the later instant 10. -/
def lEarlyErr : List (Settled (List Failure)) :=
  [{ time := 5, result := .error "Error: no block" }, { time := 10, result := .ok [] }]

/-- Trace whose every iteration polls tip 200 and whose batch index 0
always rejects its block fetch. -/
def traceAlwaysErr : Nat → IterOracle :=
  fun _ => pollOracle 200 (fun i =>
    if i = 0 then errBlockOracle "Error: connection reset" else okBlockOracle [])

/-- Trace of the two-batch stop scenario: every poll sees tip 200 and
every block fetch delivers an empty block. -/
def traceC7 : Nat → IterOracle :=
  fun _ => pollOracle 200 (fun _ => okBlockOracle [])

/-! ### Helper lemmas on the counter pipelines -/

theorem foldl_field_eq {α : Type} (g : Counters → Int) (f : α → Counters → Counters)
    (hf : ∀ a c, g (f a c) = g c) :
    ∀ (l : List α) (c : Counters), g (l.foldl (fun acc a => f a acc) c) = g c := by
  intro l
  induction l with
  | nil => intro c; rfl
  | cons a t ih => intro c; rw [List.foldl_cons, ih, hf]

theorem foldl_field_pred {α : Type} (p : Counters → Prop) (f : α → Counters → Counters)
    (hf : ∀ a c, p c → p (f a c)) :
    ∀ (l : List α) (c : Counters), p c → p (l.foldl (fun acc a => f a acc) c) := by
  intro l
  induction l with
  | nil => intro c hc; exact hc
  | cons a t ih => intro c hc; rw [List.foldl_cons]; exact ih _ (hf _ _ hc)

theorem cntLe_refl (c : Counters) : c.CntLe c :=
  ⟨le_refl _, le_refl _, le_refl _, le_refl _, le_refl _⟩

theorem cntLe_trans {a b c : Counters} (h1 : a.CntLe b) (h2 : b.CntLe c) : a.CntLe c :=
  ⟨le_trans h1.1 h2.1, le_trans h1.2.1 h2.2.1, le_trans h1.2.2.1 h2.2.2.1,
    le_trans h1.2.2.2.1 h2.2.2.2.1, le_trans h1.2.2.2.2 h2.2.2.2.2⟩

theorem foldl_cntLe {α : Type} (f : α → Counters → Counters)
    (hf : ∀ a c, Counters.CntLe c (f a c)) :
    ∀ (l : List α) (c : Counters), Counters.CntLe c (l.foldl (fun acc a => f a acc) c) := by
  intro l c
  refine foldl_field_pred (fun x => Counters.CntLe c x) f ?_ l c (cntLe_refl c)
  intro a x hx
  exact cntLe_trans hx (hf a x)

theorem noteCall_failCalls (b : Bool) (ms : Int) (c : Counters) :
    (noteCall b ms c).failCalls = c.failCalls := rfl

theorem noteCall_timeoutCalls (b : Bool) (ms : Int) (c : Counters) :
    (noteCall b ms c).timeoutCalls = c.timeoutCalls := rfl

theorem noteCall_retryCalls (b : Bool) (ms : Int) (c : Counters) :
    (noteCall b ms c).retryCalls = c.retryCalls := rfl

theorem noteCall_cntLe (b : Bool) (ms : Int) (c : Counters) : c.CntLe (noteCall b ms c) := by
  refine ⟨?_, ?_, ?_, ?_, ?_⟩ <;> simp only [noteCall] <;> (try split) <;> omega

theorem noteFailure_retryCalls (f : Failure) (c : Counters) :
    (noteFailure f c).retryCalls = c.retryCalls := rfl

theorem noteFailure_cntLe (f : Failure) (c : Counters) : c.CntLe (noteFailure f c) := by
  refine ⟨?_, ?_, ?_, ?_, ?_⟩ <;> simp only [noteFailure] <;> (try split) <;> omega

theorem noteFailure_ft (f : Failure) (c : Counters)
    (h : c.timeoutCalls ≤ c.failCalls) :
    (noteFailure f c).timeoutCalls ≤ (noteFailure f c).failCalls := by
  simp only [noteFailure]
  split <;> omega

theorem receiptCalls_field (bo : BlockOracle) (k : Nat) (c : Counters)
    (g : Counters → Int) (hg : ∀ b ms x, g (noteCall b ms x) = g x) :
    g (receiptCalls bo k c) = g c := by
  unfold receiptCalls
  refine foldl_field_eq g (fun j acc =>
    match bo.receiptRes j with
    | .fulfilled => noteCall true (bo.receiptMs j) acc
    | .rejected _ => noteCall (bo.receiptCompleted j) (bo.receiptMs j) acc) ?_ (List.range k) c
  intro j x
  rcases h : bo.receiptRes j with _ | e <;> simp [h, hg]

theorem receiptCalls_cntLe (bo : BlockOracle) (k : Nat) (c : Counters) :
    c.CntLe (receiptCalls bo k c) := by
  unfold receiptCalls
  refine foldl_cntLe _ ?_ (List.range k) c
  intro j x
  rcases h : bo.receiptRes j with _ | e <;> simp [h] <;> exact noteCall_cntLe _ _ _

theorem blockCallsDelta_field (bo : BlockOracle) (c : Counters)
    (g : Counters → Int) (hg : ∀ b ms x, g (noteCall b ms x) = g x) :
    g (blockCallsDelta bo c) = g c := by
  unfold blockCallsDelta
  rcases h : bo.blockFetch with e | b
  · simp [h, hg]
  · rcases b with _ | b
    · simp [h, hg]
    · simp [h, receiptCalls_field _ _ _ g hg, hg]

theorem blockCallsDelta_cntLe (bo : BlockOracle) (c : Counters) :
    c.CntLe (blockCallsDelta bo c) := by
  unfold blockCallsDelta
  rcases h : bo.blockFetch with e | b
  · simp [h]; exact noteCall_cntLe _ _ _
  · rcases b with _ | b
    · simp [h]; exact noteCall_cntLe _ _ _
    · simp [h]; exact cntLe_trans (noteCall_cntLe _ _ _) (receiptCalls_cntLe _ _ _)

theorem batchInstrument_field (io : IterOracle) (n : Nat) (c : Counters)
    (g : Counters → Int) (hg : ∀ b ms x, g (noteCall b ms x) = g x) :
    g (batchInstrument io n c) = g c := by
  unfold batchInstrument
  exact foldl_field_eq g (fun i acc => blockCallsDelta (io.blockOf i) acc)
    (fun i x => blockCallsDelta_field _ _ g hg) (List.range n) c

theorem batchInstrument_cntLe (io : IterOracle) (n : Nat) (c : Counters) :
    c.CntLe (batchInstrument io n c) := by
  unfold batchInstrument
  exact foldl_cntLe _ (fun i x => blockCallsDelta_cntLe _ _) (List.range n) c

theorem countFailures_retryCalls (results : List (List Failure)) (c : Counters) :
    (countFailures results c).retryCalls = c.retryCalls := by
  unfold countFailures
  refine foldl_field_eq (fun x => x.retryCalls)
    (fun fails acc => fails.foldl (fun a f => noteFailure f a) acc) ?_ results c
  intro fails x
  exact foldl_field_eq (fun y => y.retryCalls) (fun f a => noteFailure f a)
    (fun f a => noteFailure_retryCalls f a) fails x

theorem countFailures_cntLe (results : List (List Failure)) (c : Counters) :
    c.CntLe (countFailures results c) := by
  unfold countFailures
  refine foldl_cntLe _ ?_ results c
  intro fails x
  exact foldl_cntLe _ (fun f a => noteFailure_cntLe f a) fails x

theorem countFailures_ft (results : List (List Failure)) (c : Counters)
    (h : c.timeoutCalls ≤ c.failCalls) :
    (countFailures results c).timeoutCalls ≤ (countFailures results c).failCalls := by
  unfold countFailures
  refine foldl_field_pred (fun x => x.timeoutCalls ≤ x.failCalls)
    (fun fails acc => fails.foldl (fun a f => noteFailure f a) acc) ?_ results c h
  intro fails x hx
  exact foldl_field_pred (fun y => y.timeoutCalls ≤ y.failCalls) (fun f a => noteFailure f a)
    (fun f a => noteFailure_ft f a) fails x hx

/-! ### Lemmas on the receipt-failure collection -/

theorem collectFails_reasons :
    ∀ (l : List ReceiptResult) (clock : Nat → Int) (j : Nat),
      (collectFails l clock j).map Failure.reason = rejectedReasons l := by
  intro l
  induction l with
  | nil => intro clock j; rfl
  | cons r t ih =>
    intro clock j
    rcases r with _ | e
    · simpa [collectFails, rejectedReasons, rejectedReason, List.filterMap_cons]
        using ih clock (j + 1)
    · simp [collectFails, rejectedReasons, rejectedReason, List.filterMap_cons]
      simpa [rejectedReasons] using ih clock (j + 1)

theorem collectFails_length (l : List ReceiptResult) (clock : Nat → Int) (j : Nat) :
    (collectFails l clock j).length = countRejected l := by
  have h := collectFails_reasons l clock j
  have h2 : ((collectFails l clock j).map Failure.reason).length = (rejectedReasons l).length := by
    rw [h]
  simpa [countRejected] using h2

theorem collectFails_timestamps :
    ∀ (l : List ReceiptResult) (clock : Nat → Int) (j : Nat),
      ∀ fl ∈ collectFails l clock j, ∃ i, fl.timestamp = clock i := by
  intro l
  induction l with
  | nil => intro clock j fl hfl; cases hfl
  | cons r t ih =>
    intro clock j fl hfl
    rcases r with _ | e
    · exact ih clock (j + 1) fl hfl
    · rcases List.mem_cons.mp hfl with hfl | hfl
      · exact ⟨j, hfl ▸ rfl⟩
      · exact ih clock (j + 1) fl hfl

theorem countRejected_le_length (l : List ReceiptResult) : countRejected l ≤ l.length :=
  List.length_filterMap_le rejectedReason l

theorem settledReceipts_length (txs : List String) (f : Nat → ReceiptResult) :
    (settledReceipts txs f).length = txs.length := by
  simp [settledReceipts]

/-! ### Lemmas on the join semantics -/

theorem firstRejection_cons_err {α : Type} (s : Settled α) (t : List (Settled α)) (e : String)
    (hr : s.result = .error e) :
    firstRejection (s :: t) =
      match firstRejection t with
      | none => some (s.time, e)
      | some (t2, e2) => if t2 < s.time then some (t2, e2) else some (s.time, e) := by
  simp only [firstRejection, hr]

theorem firstRejection_cons_ok {α : Type} (s : Settled α) (t : List (Settled α)) (v : α)
    (hr : s.result = .ok v) :
    firstRejection (s :: t) = firstRejection t := by
  simp only [firstRejection, hr]

theorem firstRejection_none_iff {α : Type} :
    ∀ l : List (Settled α), firstRejection l = none ↔ ∀ s ∈ l, raised s.result = false := by
  intro l
  induction l with
  | nil => simp [firstRejection]
  | cons s t ih =>
    rcases hr : s.result with e | v
    · rw [firstRejection_cons_err s t e hr]
      constructor
      · intro h
        exfalso
        rcases hfr : firstRejection t with _ | ⟨t2, e2⟩
        · rw [hfr] at h
          exact Option.noConfusion h
        · rw [hfr] at h
          have h2 : (if t2 < s.time then some (t2, e2) else some (s.time, e)) = none := h
          revert h2
          split <;> intro h2 <;> exact Option.noConfusion h2
      · intro h
        exact absurd (h s (List.mem_cons_self s t)) (by simp [raised, hr])
    · rw [firstRejection_cons_ok s t v hr]
      constructor
      · intro h s2 hs2
        rcases List.mem_cons.mp hs2 with hs2 | hs2
        · subst hs2; simp [raised, hr]
        · exact (ih.1 h) s2 hs2
      · intro h
        exact ih.2 (fun s2 hs2 => h s2 (List.mem_cons_of_mem s hs2))

theorem foldl_max_le_init {α : Type} :
    ∀ (l : List (Settled α)) (init : Int),
      init ≤ l.foldl (fun m s => max m s.time) init := by
  intro l
  induction l with
  | nil => intro init; exact le_refl _
  | cons s t ih =>
    intro init
    exact le_trans (le_max_left init s.time) (ih (max init s.time))

theorem mem_le_foldl_max {α : Type} :
    ∀ (l : List (Settled α)) (init : Int) (s : Settled α), s ∈ l →
      s.time ≤ l.foldl (fun m x => max m x.time) init := by
  intro l
  induction l with
  | nil => intro init s hs; cases hs
  | cons a t ih =>
    intro init s hs
    rcases List.mem_cons.mp hs with hs | hs
    · subst hs
      exact le_trans (le_max_right init s.time) (foldl_max_le_init t (max init s.time))
    · exact ih (max init a.time) s hs

theorem le_settleMax {α : Type} (l : List (Settled α)) (s : Settled α) (hs : s ∈ l) :
    s.time ≤ settleMax l :=
  mem_le_foldl_max l 0 s hs

theorem okValues_length_of_ok {α : Type} :
    ∀ l : List (Settled α), (∀ s ∈ l, raised s.result = false) →
      (okValues l).length = l.length := by
  intro l
  induction l with
  | nil => intro h; rfl
  | cons s t ih =>
    intro h
    rcases hr : s.result with e | v
    · exact absurd (h s (List.mem_cons_self s t)) (by simp [raised, hr])
    · have := ih (fun s2 hs2 => h s2 (List.mem_cons_of_mem s hs2))
      simp [okValues, List.filterMap_cons, hr, Except.toOption]
      simpa [okValues] using this

/-! ### C4: receipt failures never raise; the raise condition -/

/-- C4 (amended): for every delivered block with `k` transactions of which
`m` receipt fetches reject, the block processor returns normally with
exactly `m` failure records (`m ≤ k`), carrying the rejection reasons in
order and an observation timestamp taken from the collection clock; and it
raises exactly when the block fetch fails to yield a block — the node
reporting it absent or the fetch call itself rejecting — not only in the
absent case. -/
theorem C4_processor_failures (b : Block) (f : Nat → ReceiptResult) (clock : Nat → Int)
    (n : Int) :
    (∃ fails, processBlock n (.ok (some b)) f clock = .ok fails ∧
      fails.map Failure.reason = rejectedReasons (settledReceipts b.transactions f) ∧
      fails.length = countRejected (settledReceipts b.transactions f) ∧
      fails.length ≤ b.transactions.length ∧
      ∀ fl ∈ fails, ∃ i, fl.timestamp = clock i) ∧
    (∀ fetched : Except String (Option Block),
      raised (processBlock n fetched f clock) = true ↔ ∀ bb : Block, fetched ≠ .ok (some bb)) := by
  constructor
  · refine ⟨collectFails (settledReceipts b.transactions f) clock 0, rfl,
      collectFails_reasons _ _ _, collectFails_length _ _ _, ?_,
      collectFails_timestamps _ _ _⟩
    rw [collectFails_length]
    calc countRejected (settledReceipts b.transactions f)
        ≤ (settledReceipts b.transactions f).length := countRejected_le_length _
      _ = b.transactions.length := settledReceipts_length _ _
  · intro fetched
    rcases fetched with e | ob
    · simp [processBlock, raised]
    · rcases ob with _ | bb
      · simp [processBlock, raised]
      · simp [processBlock, raised]

/-- C4 counterexample: the claim as stated allows a raise only when the
node reports the block absent, but a rejected `getBlock` call — here a
transport failure, which is not the null-block outcome — also propagates
out of the block processor as a raise. -/
theorem C4_counterexample :
    raised (processBlock 7 (.error "Error: connection reset") (fun _ => .fulfilled)
      (fun _ => 0)) = true ∧
    (Except.error "Error: connection reset" : Except String (Option Block)) ≠ .ok none := by
  exact ⟨rfl, by simp⟩

/-- Witness for C4 at a block of three transactions whose even indices
reject: two records, returned normally. -/
theorem C4_processor_failures_witness :
    (∃ fails, processBlock 5 (.ok (some { transactions := ["a", "b", "c"] })) fOddEven
      (fun i => (100 : Int) + i) = .ok fails ∧ fails.length = 2) ∧
    raised (processBlock 5 (.ok (some { transactions := ["a", "b", "c"] })) fOddEven
      (fun i => (100 : Int) + i)) = false := by
  obtain ⟨⟨fails, h1, h2, h3, h4, h5⟩, hiff⟩ :=
    C4_processor_failures { transactions := ["a", "b", "c"] } fOddEven
      (fun i => (100 : Int) + i) 5
  refine ⟨⟨fails, h1, ?_⟩, ?_⟩
  · rw [h3]; decide
  · rw [h1]; rfl

/-! ### C6: join semantics of the batch dispatch -/

/-- C6 (amended): the batch join `promiseAll` (src line 400) waits for
every invocation and yields one outcome per dispatched block whenever no
invocation raises; when an invocation raises, the loop instead proceeds
with the earliest rejection, possibly before sibling outcomes are
observed. -/
theorem C6_join_waits_when_all_ok (l : List (Settled (List Failure)))
    (h : ∀ s ∈ l, raised s.result = false) :
    (∀ s ∈ l, s.time ≤ (promiseAll l).time) ∧
    ∃ vs, (promiseAll l).result = .ok vs ∧ vs.length = l.length := by
  have hn : firstRejection l = none := (firstRejection_none_iff l).2 h
  constructor
  · intro s hs
    simp only [promiseAll, hn]
    exact le_settleMax l s hs
  · refine ⟨okValues l, ?_, okValues_length_of_ok l h⟩
    simp only [promiseAll, hn]

/-- C6 counterexample: with a rejection settling at instant 5 and a
sibling fulfilling only at instant 10, the join settles at instant 5 with
only the rejection — the loop proceeds before every sibling outcome is
observed, contradicting the claimed all-complete join. -/
theorem C6_counterexample :
    (promiseAll lEarlyErr).time = 5 ∧ raised (promiseAll lEarlyErr).result = true ∧
    ¬(∀ s ∈ lEarlyErr, s.time ≤ (promiseAll lEarlyErr).time) := by
  decide

/-- Witness for C6 on two fulfilled block promises. -/
theorem C6_join_waits_when_all_ok_witness :
    (∀ s ∈ lAllOk, s.time ≤ (promiseAll lAllOk).time) ∧
    ∃ vs, (promiseAll lAllOk).result = .ok vs ∧ vs.length = lAllOk.length :=
  C6_join_waits_when_all_ok lAllOk (by decide)

/-! ### C9: summary arithmetic -/

/-- C9: every rendered summary entry reports an average latency equal to
`totalCallMs / calls` and a calls-per-second figure equal to `calls`
divided by the elapsed seconds `(finishTimeMs - startTimeMs) / 1000`. -/
theorem C9_summary_arithmetic (startTimeMs : Int) (r : TestResult) :
    (renderSummary startTimeMs r).avgCallMs = (r.totalCallMs : Rat) / (r.calls : Rat) ∧
    (renderSummary startTimeMs r).rps =
      (r.calls : Rat) / (((r.finishTimeMs - startTimeMs : Int) : Rat) / 1000) :=
  ⟨rfl, rfl⟩

/-! ### Branch lemmas for the scheduler step -/

theorem step_halt_finish (cfg : TestConfig) (io : IterOracle) (s : LoopState)
    (hfin : finishReachedB cfg s.curr = true) :
    schedulerStep cfg io s = .halt .finishReached s := by
  simp [schedulerStep, hfin]

theorem step_halt_time (cfg : TestConfig) (io : IterOracle) (s : LoopState)
    (hfin : finishReachedB cfg s.curr = false)
    (htime : timeReachedB cfg io.loopStartTime = true) :
    schedulerStep cfg io s = .halt .timeReached s := by
  simp [schedulerStep, hfin, htime]

theorem step_poll_err (cfg : TestConfig) (io : IterOracle) (s : LoopState) (e : String)
    (hfin : finishReachedB cfg s.curr = false)
    (htime : timeReachedB cfg io.loopStartTime = false)
    (hpoll : io.pollResult = .error e) :
    schedulerStep cfg io s =
      .next { s with counters := noteCall io.pollCompleted io.pollMs s.counters } := by
  simp [schedulerStep, hfin, htime, hpoll]

theorem step_caught_up (cfg : TestConfig) (io : IterOracle) (s : LoopState) (latest : Int)
    (hfin : finishReachedB cfg s.curr = false)
    (htime : timeReachedB cfg io.loopStartTime = false)
    (hpoll : io.pollResult = .ok latest) (hge : latest ≤ s.curr) :
    schedulerStep cfg io s =
      .next { s with counters := noteCall true io.pollMs s.counters } := by
  simp [schedulerStep, hfin, htime, hpoll]
  intro h
  exact absurd hge (by omega)

theorem step_dispatch_rejected (cfg : TestConfig) (io : IterOracle) (s : LoopState)
    (latest : Int) (t : Int) (e : String)
    (hfin : finishReachedB cfg s.curr = false)
    (htime : timeReachedB cfg io.loopStartTime = false)
    (hpoll : io.pollResult = .ok latest) (hlt : s.curr < latest)
    (hfr : firstRejection (batchSettles io (dispatchWidth cfg io s.curr).toNat s.curr)
      = some (t, e)) :
    schedulerStep cfg io s = .next { s with
      counters := batchInstrument io (dispatchWidth cfg io s.curr).toNat
        (noteCall true io.pollMs s.counters),
      dispatchCount := s.dispatchCount + 1 } := by
  simp [schedulerStep, hfin, htime, hpoll]
  rw [if_neg (by omega : ¬latest ≤ s.curr)]
  simp [promiseAll, hfr]

theorem step_dispatch_fulfilled (cfg : TestConfig) (io : IterOracle) (s : LoopState)
    (latest : Int)
    (hfin : finishReachedB cfg s.curr = false)
    (htime : timeReachedB cfg io.loopStartTime = false)
    (hpoll : io.pollResult = .ok latest) (hlt : s.curr < latest)
    (hfr : firstRejection (batchSettles io (dispatchWidth cfg io s.curr).toNat s.curr) = none) :
    schedulerStep cfg io s = .next
      { curr := s.curr + dispatchWidth cfg io s.curr,
        counters := (countFailures
          (okValues (batchSettles io (dispatchWidth cfg io s.curr).toNat s.curr))
          (batchInstrument io (dispatchWidth cfg io s.curr).toNat
            (noteCall true io.pollMs s.counters))),
        dispatchCount := s.dispatchCount + 1 } := by
  simp [schedulerStep, hfin, htime, hpoll]
  rw [if_neg (by omega : ¬latest ≤ s.curr)]
  simp [promiseAll, hfr]

theorem dispatchWidth_eq (cfg : TestConfig) (io : IterOracle) (curr latest : Int)
    (hfin : finishReachedB cfg curr = false)
    (htime : timeReachedB cfg io.loopStartTime = false)
    (hpoll : io.pollResult = .ok latest) (hlt : curr < latest) :
    dispatchWidth cfg io curr = min cfg.batchSize (latest - curr) := by
  simp [dispatchWidth, hfin, htime, hpoll]
  intro h
  exact absurd h (by omega)

theorem dispatchWidth_nonneg (cfg : TestConfig) (io : IterOracle) (curr : Int)
    (hbs : 0 ≤ cfg.batchSize) : 0 ≤ dispatchWidth cfg io curr := by
  unfold dispatchWidth
  split
  · exact le_refl 0
  · split
    · exact le_refl 0
    · rcases hpoll : io.pollResult with e | latest
      · exact le_refl 0
      · split
        · exact le_refl 0
        · rename_i hc
          omega

theorem batchSettles_mem (io : IterOracle) (n : Nat) (curr : Int)
    (st : Settled (List Failure)) (hst : st ∈ batchSettles io n curr) :
    ∃ i, i < n ∧ st = { time := (io.blockOf i).settleTime, result := blockResult io curr i } := by
  unfold batchSettles at hst
  obtain ⟨i, hi, rfl⟩ := List.mem_map.mp hst
  exact ⟨i, List.mem_range.mp hi, rfl⟩

theorem guards_of_settles_err (cfg : TestConfig) (io : IterOracle) (curr : Int)
    (h : ∃ st ∈ batchSettles io (dispatchWidth cfg io curr).toNat curr, raised st.result = true) :
    finishReachedB cfg curr = false ∧ timeReachedB cfg io.loopStartTime = false ∧
      ∃ latest, io.pollResult = .ok latest ∧ curr < latest := by
  obtain ⟨st, hmem, hr⟩ := h
  have hw : (dispatchWidth cfg io curr).toNat ≠ 0 := by
    intro h0
    rw [h0] at hmem
    simp [batchSettles] at hmem
  have hfin : finishReachedB cfg curr = false := by
    by_contra hc
    have h1 : finishReachedB cfg curr = true := by
      cases hb : finishReachedB cfg curr
      · exact absurd hb hc
      · rfl
    exact hw (by simp [dispatchWidth, h1])
  have htime : timeReachedB cfg io.loopStartTime = false := by
    by_contra hc
    have h1 : timeReachedB cfg io.loopStartTime = true := by
      cases hb : timeReachedB cfg io.loopStartTime
      · exact absurd hb hc
      · rfl
    exact hw (by simp [dispatchWidth, hfin, h1])
  refine ⟨hfin, htime, ?_⟩
  rcases hpoll : io.pollResult with e | latest
  · exact absurd (by simp [dispatchWidth, hfin, htime, hpoll]) hw
  · refine ⟨latest, rfl, ?_⟩
    by_contra hc
    refine hw ?_
    simp only [dispatchWidth, hfin, htime, hpoll]
    rw [if_neg (by simp), if_neg (by simp), if_pos (by omega : curr ≥ latest)]
    rfl

theorem step_batch_err (cfg : TestConfig) (io : IterOracle) (s : LoopState)
    (h : ∃ st ∈ batchSettles io (dispatchWidth cfg io s.curr).toNat s.curr,
      raised st.result = true) :
    schedulerStep cfg io s = .next { s with
      counters := batchInstrument io (dispatchWidth cfg io s.curr).toNat
        (noteCall true io.pollMs s.counters),
      dispatchCount := s.dispatchCount + 1 } := by
  obtain ⟨hfin, htime, latest, hpoll, hlt⟩ := guards_of_settles_err cfg io s.curr h
  rcases hfr : firstRejection (batchSettles io (dispatchWidth cfg io s.curr).toNat s.curr)
    with _ | ⟨t, e⟩
  · exfalso
    obtain ⟨st, hmem, hr⟩ := h
    have := (firstRejection_none_iff _).1 hfr st hmem
    rw [hr] at this
    exact Bool.noConfusion this
  · exact step_dispatch_rejected cfg io s latest t e hfin htime hpoll hlt hfr

theorem step_batch_ok (cfg : TestConfig) (io : IterOracle) (s : LoopState) (latest : Int)
    (hfin : finishReachedB cfg s.curr = false)
    (htime : timeReachedB cfg io.loopStartTime = false)
    (hpoll : io.pollResult = .ok latest) (hlt : s.curr < latest)
    (hok : ∀ st ∈ batchSettles io (dispatchWidth cfg io s.curr).toNat s.curr,
      raised st.result = false) :
    ∃ c2, schedulerStep cfg io s = .next
      { curr := s.curr + dispatchWidth cfg io s.curr,
        counters := c2, dispatchCount := s.dispatchCount + 1 } :=
  ⟨_, step_dispatch_fulfilled cfg io s latest hfin htime hpoll hlt
    ((firstRejection_none_iff _).2 hok)⟩

theorem schedulerStep_chars (cfg : TestConfig) (io : IterOracle) (s : LoopState) :
    schedulerStep cfg io s = .halt .finishReached s ∨
    schedulerStep cfg io s = .halt .timeReached s ∨
    (∃ b ms, schedulerStep cfg io s = .next { s with counters := noteCall b ms s.counters }) ∨
    ((∃ t e, firstRejection (batchSettles io (dispatchWidth cfg io s.curr).toNat s.curr)
        = some (t, e)) ∧
      schedulerStep cfg io s = .next { s with
        counters := batchInstrument io (dispatchWidth cfg io s.curr).toNat
          (noteCall true io.pollMs s.counters),
        dispatchCount := s.dispatchCount + 1 }) ∨
    (firstRejection (batchSettles io (dispatchWidth cfg io s.curr).toNat s.curr) = none ∧
      schedulerStep cfg io s = .next
        { curr := s.curr + dispatchWidth cfg io s.curr,
          counters := (countFailures
            (okValues (batchSettles io (dispatchWidth cfg io s.curr).toNat s.curr))
            (batchInstrument io (dispatchWidth cfg io s.curr).toNat
              (noteCall true io.pollMs s.counters))),
          dispatchCount := s.dispatchCount + 1 }) := by
  cases hfin : finishReachedB cfg s.curr
  · cases htime : timeReachedB cfg io.loopStartTime
    · rcases hpoll : io.pollResult with e | latest
      · exact Or.inr (Or.inr (Or.inl ⟨io.pollCompleted, io.pollMs,
          step_poll_err cfg io s e hfin htime hpoll⟩))
      · by_cases hge : latest ≤ s.curr
        · exact Or.inr (Or.inr (Or.inl ⟨true, io.pollMs,
            step_caught_up cfg io s latest hfin htime hpoll hge⟩))
        · rcases hfr : firstRejection
            (batchSettles io (dispatchWidth cfg io s.curr).toNat s.curr) with _ | ⟨t, e⟩
          · exact Or.inr (Or.inr (Or.inr (Or.inr ⟨rfl,
              step_dispatch_fulfilled cfg io s latest hfin htime hpoll (by omega) hfr⟩)))
          · exact Or.inr (Or.inr (Or.inr (Or.inl ⟨⟨t, e, rfl⟩,
              step_dispatch_rejected cfg io s latest t e hfin htime hpoll (by omega) hfr⟩)))
    · exact Or.inr (Or.inl (step_halt_time cfg io s hfin htime))
  · exact Or.inl (step_halt_finish cfg io s hfin)

/-! ### Counter invariants of one pass and of whole runs -/

theorem batchInstrument_failCalls (io : IterOracle) (n : Nat) (c : Counters) :
    (batchInstrument io n c).failCalls = c.failCalls :=
  batchInstrument_field io n c (fun x => x.failCalls) (fun b ms x => rfl)

theorem batchInstrument_timeoutCalls (io : IterOracle) (n : Nat) (c : Counters) :
    (batchInstrument io n c).timeoutCalls = c.timeoutCalls :=
  batchInstrument_field io n c (fun x => x.timeoutCalls) (fun b ms x => rfl)

theorem batchInstrument_retryCalls (io : IterOracle) (n : Nat) (c : Counters) :
    (batchInstrument io n c).retryCalls = c.retryCalls :=
  batchInstrument_field io n c (fun x => x.retryCalls) (fun b ms x => rfl)

theorem cntNonneg_of_le {a b : Counters} (h1 : a.CntNonneg) (h2 : a.CntLe b) : b.CntNonneg :=
  ⟨le_trans h1.1 h2.1, le_trans h1.2.1 h2.2.1, le_trans h1.2.2.1 h2.2.2.1,
    le_trans h1.2.2.2.1 h2.2.2.2.1, le_trans h1.2.2.2.2 h2.2.2.2.2⟩

theorem step_counters_cntLe (cfg : TestConfig) (io : IterOracle) (s : LoopState) :
    s.counters.CntLe (outState (schedulerStep cfg io s)).counters := by
  rcases schedulerStep_chars cfg io s with h | h | ⟨b, ms, h⟩ | ⟨_, h⟩ | ⟨_, h⟩ <;> rw [h]
  · exact cntLe_refl _
  · exact cntLe_refl _
  · exact noteCall_cntLe _ _ _
  · exact cntLe_trans (noteCall_cntLe _ _ _) (batchInstrument_cntLe _ _ _)
  · exact cntLe_trans (cntLe_trans (noteCall_cntLe _ _ _) (batchInstrument_cntLe _ _ _))
      (countFailures_cntLe _ _)

theorem step_ft (cfg : TestConfig) (io : IterOracle) (s : LoopState)
    (hft : s.counters.timeoutCalls ≤ s.counters.failCalls) :
    (outState (schedulerStep cfg io s)).counters.timeoutCalls ≤
      (outState (schedulerStep cfg io s)).counters.failCalls := by
  rcases schedulerStep_chars cfg io s with h | h | ⟨b, ms, h⟩ | ⟨_, h⟩ | ⟨_, h⟩ <;> rw [h]
  · exact hft
  · exact hft
  · show (noteCall b ms s.counters).timeoutCalls ≤ (noteCall b ms s.counters).failCalls
    rw [noteCall_timeoutCalls, noteCall_failCalls]
    exact hft
  · show (batchInstrument io _ (noteCall true io.pollMs s.counters)).timeoutCalls ≤
      (batchInstrument io _ (noteCall true io.pollMs s.counters)).failCalls
    rw [batchInstrument_timeoutCalls, batchInstrument_failCalls,
      noteCall_timeoutCalls, noteCall_failCalls]
    exact hft
  · refine countFailures_ft _ _ ?_
    rw [batchInstrument_timeoutCalls, batchInstrument_failCalls,
      noteCall_timeoutCalls, noteCall_failCalls]
    exact hft

theorem step_retryCalls (cfg : TestConfig) (io : IterOracle) (s : LoopState) :
    (outState (schedulerStep cfg io s)).counters.retryCalls = s.counters.retryCalls := by
  rcases schedulerStep_chars cfg io s with h | h | ⟨b, ms, h⟩ | ⟨_, h⟩ | ⟨_, h⟩ <;> rw [h]
  · rfl
  · rfl
  · exact noteCall_retryCalls _ _ _
  · show (batchInstrument io _ (noteCall true io.pollMs s.counters)).retryCalls =
      s.counters.retryCalls
    rw [batchInstrument_retryCalls, noteCall_retryCalls]
  · show (countFailures _ (batchInstrument io _ (noteCall true io.pollMs s.counters))).retryCalls =
      s.counters.retryCalls
    rw [countFailures_retryCalls, batchInstrument_retryCalls, noteCall_retryCalls]

theorem runLoop_retryCalls (cfg : TestConfig) (trace : Nat → IterOracle) :
    ∀ (fuel i : Nat) (s : LoopState),
      ((runLoop cfg trace fuel i s).2).counters.retryCalls = s.counters.retryCalls := by
  intro fuel
  induction fuel with
  | zero => intro i s; rfl
  | succ n ih =>
    intro i s
    have hstep := step_retryCalls cfg (trace i) s
    simp only [runLoop]
    cases hss : schedulerStep cfg (trace i) s with
    | halt k sf =>
      rw [hss] at hstep
      simpa [outState] using hstep
    | next s2 =>
      rw [hss] at hstep
      simp only [outState] at hstep
      rw [ih (i + 1) s2]
      exact hstep

/-! ### C8: the retry hook and the reported retry counter -/

/-- C8: the retry-decision hook returns `false` for every response and
attempt, and consequently the retry counter in the result record of every
scheduler run is zero. -/
theorem C8_no_retry :
    (∀ statusCode attempt : Int, retryFunc statusCode attempt = false) ∧
    (∀ (idx : Int) (cfg : TestConfig) (tip : Int) (trace : Nat → IterOracle)
      (fuel : Nat) (t : Int),
      (startScheduler idx cfg tip trace fuel t).2.retryCalls = 0) := by
  refine ⟨fun _ _ => rfl, ?_⟩
  intro idx cfg tip trace fuel t
  show (buildResult idx cfg (cfg.startBlockNumber.getD tip) t
    (runLoop cfg trace fuel 0 (initState (cfg.startBlockNumber.getD tip))).2).retryCalls = 0
  show (runLoop cfg trace fuel 0 (initState (cfg.startBlockNumber.getD tip))).2.counters.retryCalls = 0
  rw [runLoop_retryCalls]
  rfl

/-! ### C5: counter invariants -/

/-- C5 (amended): across every pass of the loop body each counter is
non-decreasing, non-negativity of the count counters is preserved, and
the timeout count never exceeds the failed-call count; however the claim
that the total call count dominates the failed-call count does not hold
on the code, because a timed-out receipt fetch increments the failure
counter while the timed-out call never completes a processed response
and so never increments the call counter. -/
theorem C5_counter_invariants (cfg : TestConfig) (io : IterOracle) (s : LoopState) :
    s.counters.CntLe (outState (schedulerStep cfg io s)).counters ∧
    (s.counters.timeoutCalls ≤ s.counters.failCalls →
      (outState (schedulerStep cfg io s)).counters.timeoutCalls ≤
        (outState (schedulerStep cfg io s)).counters.failCalls) ∧
    (s.counters.CntNonneg → (outState (schedulerStep cfg io s)).counters.CntNonneg) :=
  ⟨step_counters_cntLe cfg io s, step_ft cfg io s,
    fun hn => cntNonneg_of_le hn (step_counters_cntLe cfg io s)⟩

/-- C5 counterexample: one pass over a block of three transactions whose
receipt fetches all time out leaves 2 completed calls (the tip poll and
the block fetch) against 3 failed calls, refuting the claimed invariant
that the total call count dominates the failed-call count. -/
theorem C5_counterexample :
    (outState (schedulerStep cfgB1 ioC5 (initState 100))).counters.totalCalls = 2 ∧
    (outState (schedulerStep cfgB1 ioC5 (initState 100))).counters.failCalls = 3 ∧
    ¬((outState (schedulerStep cfgB1 ioC5 (initState 100))).counters.failCalls ≤
      (outState (schedulerStep cfgB1 ioC5 (initState 100))).counters.totalCalls) := by
  decide

/-- Witness for C5 at a concrete pass from the fresh loop state. -/
theorem C5_counter_invariants_witness :
    (initState 100).counters.CntLe (outState (schedulerStep cfgB1 ioC5 (initState 100))).counters ∧
    (outState (schedulerStep cfgB1 ioC5 (initState 100))).counters.timeoutCalls ≤
      (outState (schedulerStep cfgB1 ioC5 (initState 100))).counters.failCalls ∧
    (outState (schedulerStep cfgB1 ioC5 (initState 100))).counters.CntNonneg := by
  have h := C5_counter_invariants cfgB1 ioC5 (initState 100)
  exact ⟨h.1, h.2.1 (by decide), h.2.2 (by refine ⟨?_, ?_, ?_, ?_, ?_⟩ <;> decide)⟩

/-! ### C1: the rollback branch is dead code -/

/-- C1 (code bug): the rollback branch can never fire, because
`prevLatestBlockNumber` is re-declared to `0` at the top of every
iteration (src line 377), so no pass of the loop body ever exits through
the rollback path; concretely, a trace observing tip 1000 and then tip
998 keeps dispatching and advances the pointer from 990 to 992 instead of
terminating. -/
theorem C1_rollback_never_fires :
    (∀ (cfg : TestConfig) (io : IterOracle) (s : LoopState),
      isRollbackHalt (schedulerStep cfg io s) = false) ∧
    (runLoop cfgB1 traceRollback 2 0 (initState 990)).1 = none ∧
    (runLoop cfgB1 traceRollback 2 0 (initState 990)).2.curr = 992 := by
  refine ⟨?_, by decide, by decide⟩
  intro cfg io s
  rcases schedulerStep_chars cfg io s with h | h | ⟨b, ms, h⟩ | ⟨_, h⟩ | ⟨_, h⟩ <;> rw [h] <;> rfl

/-! ### C2: the dispatched block interval -/

/-- C2 counterexample: at pointer 100 with tip 105 and batch size 3, the
dispatched block numbers are 101, 102, 103 — the current pointer 100 is
not dispatched, refuting the claimed interval `[current, current+width)`;
the pass still advances the pointer to 103. -/
theorem C2_counterexample :
    batchNums (dispatchWidth cfgB3 ioC2 100).toNat 100 = [101, 102, 103] ∧
    ¬((100 : Int) ∈ batchNums (dispatchWidth cfgB3 ioC2 100).toNat 100) ∧
    (outState (schedulerStep cfgB3 ioC2 (initState 100))).curr = 103 := by
  decide

/-- C2 (amended): in every DISPATCHING pass the width is
`min(batchSize, tip - current)` and exactly width consecutive block
numbers are dispatched, the i-th being `current + i + 1`, so the lowest
dispatched number is `current + 1`, not the current pointer. -/
theorem C2_dispatch_interval (cfg : TestConfig) (io : IterOracle) (curr latest : Int)
    (hfin : finishReachedB cfg curr = false)
    (htime : timeReachedB cfg io.loopStartTime = false)
    (hpoll : io.pollResult = .ok latest) (hlt : curr < latest) :
    dispatchWidth cfg io curr = min cfg.batchSize (latest - curr) ∧
    (batchNums (dispatchWidth cfg io curr).toNat curr).length =
      (dispatchWidth cfg io curr).toNat ∧
    (∀ i : Nat, i < (dispatchWidth cfg io curr).toNat →
      (batchNums (dispatchWidth cfg io curr).toNat curr)[i]? = some (curr + (i : Int) + 1)) ∧
    (0 < (dispatchWidth cfg io curr).toNat →
      (batchNums (dispatchWidth cfg io curr).toNat curr).head? = some (curr + 1)) := by
  have hith : ∀ i : Nat, i < (dispatchWidth cfg io curr).toNat →
      (batchNums (dispatchWidth cfg io curr).toNat curr)[i]? = some (curr + (i : Int) + 1) := by
    intro i hi
    unfold batchNums
    rw [List.getElem?_map, List.getElem?_range hi]
    rfl
  refine ⟨dispatchWidth_eq cfg io curr latest hfin htime hpoll hlt,
    by unfold batchNums; rw [List.length_map, List.length_range], hith, ?_⟩
  intro hpos
  rw [List.head?_eq_getElem?]
  have h0 := hith 0 hpos
  simpa using h0

/-- Witness for C2 at pointer 100, tip 105, batch size 3. -/
theorem C2_dispatch_interval_witness :
    dispatchWidth cfgB3 ioC2 100 = min cfgB3.batchSize (105 - 100) ∧
    (batchNums (dispatchWidth cfgB3 ioC2 100).toNat 100).head? = some (100 + 1) := by
  have h := C2_dispatch_interval cfgB3 ioC2 100 105 rfl rfl rfl (by decide)
  exact ⟨h.1, h.2.2.2 (by decide)⟩

/-! ### C10: records of sibling blocks in a failed batch are discarded -/

/-- C10: whenever some dispatched block of a batch raises, the pass takes
the catch path and the failed-call and timeout counters are left exactly
as they were — every failure record produced by sibling invocations of
that dispatch attempt is discarded. -/
theorem C10_failed_batch_discards_records (cfg : TestConfig) (io : IterOracle) (s : LoopState)
    (h : ∃ st ∈ batchSettles io (dispatchWidth cfg io s.curr).toNat s.curr,
      raised st.result = true) :
    (outState (schedulerStep cfg io s)).counters.failCalls = s.counters.failCalls ∧
    (outState (schedulerStep cfg io s)).counters.timeoutCalls = s.counters.timeoutCalls := by
  rw [step_batch_err cfg io s h]
  constructor
  · show (batchInstrument io _ (noteCall true io.pollMs s.counters)).failCalls =
      s.counters.failCalls
    rw [batchInstrument_failCalls, noteCall_failCalls]
  · show (batchInstrument io _ (noteCall true io.pollMs s.counters)).timeoutCalls =
      s.counters.timeoutCalls
    rw [batchInstrument_timeoutCalls, noteCall_timeoutCalls]

/-- Witness for C10: a batch of width 2 in which block 101 rejects its
fetch while block 102 completes with a timed-out receipt; no failure
counter moves. -/
theorem C10_failed_batch_discards_records_witness :
    (outState (schedulerStep cfgB2 ioC10 (initState 100))).counters.failCalls =
      (initState 100).counters.failCalls ∧
    (outState (schedulerStep cfgB2 ioC10 (initState 100))).counters.timeoutCalls =
      (initState 100).counters.timeoutCalls :=
  C10_failed_batch_discards_records cfgB2 ioC10 (initState 100) (by decide)

/-! ### C3: pointer advancement discipline -/

/-- C3: the pointer never moves backwards; in every pass it either stays
put or advances by exactly the dispatched batch width, the latter only
when every dispatched invocation returned without raising; when some
invocation raises, the pass continues into the next iteration with the
pointer unchanged and without sleeping; and a run whose every iteration
has a raising invocation retries forever — for any number of iterations
the loop neither halts nor moves the pointer. -/
theorem C3_pointer_advance :
    (∀ (cfg : TestConfig) (io : IterOracle) (s : LoopState), 0 ≤ cfg.batchSize →
      s.curr ≤ (outState (schedulerStep cfg io s)).curr) ∧
    (∀ (cfg : TestConfig) (io : IterOracle) (s : LoopState),
      (outState (schedulerStep cfg io s)).curr = s.curr ∨
        ((outState (schedulerStep cfg io s)).curr = s.curr + dispatchWidth cfg io s.curr ∧
          ∀ st ∈ batchSettles io (dispatchWidth cfg io s.curr).toNat s.curr,
            raised st.result = false)) ∧
    (∀ (cfg : TestConfig) (io : IterOracle) (s : LoopState),
      (∃ st ∈ batchSettles io (dispatchWidth cfg io s.curr).toNat s.curr,
        raised st.result = true) →
      continues (schedulerStep cfg io s) = true ∧
      (outState (schedulerStep cfg io s)).curr = s.curr ∧
      sleepMsOf cfg io s.curr = 0) ∧
    (∀ (cfg : TestConfig) (trace : Nat → IterOracle) (p : Int),
      (∀ k, ∃ st ∈ batchSettles (trace k) (dispatchWidth cfg (trace k) p).toNat p,
        raised st.result = true) →
      ∀ (fuel i : Nat) (s : LoopState), s.curr = p →
        (runLoop cfg trace fuel i s).1 = none ∧ (runLoop cfg trace fuel i s).2.curr = p) := by
  refine ⟨?_, ?_, ?_, ?_⟩
  · intro cfg io s hbs
    rcases schedulerStep_chars cfg io s with h | h | ⟨b, ms, h⟩ | ⟨_, h⟩ | ⟨_, h⟩ <;> rw [h]
    · exact le_refl _
    · exact le_refl _
    · exact le_refl _
    · exact le_refl _
    · show s.curr ≤ s.curr + dispatchWidth cfg io s.curr
      have := dispatchWidth_nonneg cfg io s.curr hbs
      omega
  · intro cfg io s
    rcases schedulerStep_chars cfg io s with h | h | ⟨b, ms, h⟩ | ⟨_, h⟩ | ⟨hfr, h⟩ <;> rw [h]
    · exact Or.inl rfl
    · exact Or.inl rfl
    · exact Or.inl rfl
    · exact Or.inl rfl
    · exact Or.inr ⟨rfl, (firstRejection_none_iff _).1 hfr⟩
  · intro cfg io s h
    have hstep := step_batch_err cfg io s h
    obtain ⟨hfin, htime, latest, hpoll, hlt⟩ := guards_of_settles_err cfg io s.curr h
    refine ⟨by rw [hstep]; rfl, by rw [hstep]; rfl, ?_⟩
    simp [sleepMsOf, hfin, htime, hpoll]
    omega
  · intro cfg trace p hall fuel
    induction fuel with
    | zero => intro i s hs; exact ⟨rfl, hs⟩
    | succ n ih =>
      intro i s hs
      have h := hall i
      rw [← hs] at h
      have hstep := step_batch_err cfg (trace i) s h
      simp only [runLoop]
      rw [hstep]
      exact ih (i + 1) _ hs

/-- Witness for C3: a batch whose block 101 rejects leaves the pointer at
100 and the loop running, over any number of such iterations. -/
theorem C3_pointer_advance_witness :
    (initState 100).curr ≤ (outState (schedulerStep cfgB1 (traceAlwaysErr 0) (initState 100))).curr ∧
    continues (schedulerStep cfgB1 (traceAlwaysErr 0) (initState 100)) = true ∧
    (outState (schedulerStep cfgB1 (traceAlwaysErr 0) (initState 100))).curr = (initState 100).curr ∧
    sleepMsOf cfgB1 (traceAlwaysErr 0) (initState 100).curr = 0 ∧
    (runLoop cfgB1 traceAlwaysErr 4 0 (initState 100)).1 = none ∧
    (runLoop cfgB1 traceAlwaysErr 4 0 (initState 100)).2.curr = 100 := by
  have h := C3_pointer_advance
  have hb := h.2.2.1 cfgB1 (traceAlwaysErr 0) (initState 100) (by decide)
  have hd := h.2.2.2 cfgB1 traceAlwaysErr 100
    (fun k => (by decide : ∃ st ∈ batchSettles (traceAlwaysErr 0)
      (dispatchWidth cfgB1 (traceAlwaysErr 0) 100).toNat 100, raised st.result = true))
    4 0 (initState 100) rfl
  exact ⟨h.1 cfgB1 (traceAlwaysErr 0) (initState 100) (by decide), hb.1, hb.2.1, hb.2.2,
    hd.1, hd.2⟩

/-! ### C7: two batches and the finish-block stop -/

theorem runLoop_succ_next (cfg : TestConfig) (trace : Nat → IterOracle) (n i : Nat)
    (s s2 : LoopState) (h : schedulerStep cfg (trace i) s = .next s2) :
    runLoop cfg trace (n + 1) i s = runLoop cfg trace n (i + 1) s2 := by
  simp only [runLoop, h]

theorem runLoop_succ_halt (cfg : TestConfig) (trace : Nat → IterOracle) (n i : Nat)
    (s sf : LoopState) (k : StopKind) (h : schedulerStep cfg (trace i) s = .halt k sf) :
    runLoop cfg trace (n + 1) i s = (some k, sf) := by
  simp only [runLoop, h]

/-- C7: with `finishBlockNumber = start + 2*batchSize - 1`, no time
bound, the observed tip always at least a batch ahead of the pointer and
no block-fetch or receipt failures, the loop performs exactly two
dispatch iterations and stops through the finish check with the reported
final block equal to the configured finish block. -/
theorem C7_two_batches_then_stop (cfg : TestConfig) (trace : Nat → IterOracle)
    (start b idx t L0 L1 : Int)
    (hb : 1 ≤ b) (hbs : cfg.batchSize = b)
    (hfin : cfg.finishBlockNumber = some (start + 2 * b - 1))
    (htgt : cfg.targetRunningTimeMs = none)
    (h0 : (trace 0).pollResult = .ok L0) (hL0 : start + b ≤ L0)
    (h0b : ∀ i : Nat, raised (blockResult (trace 0) start i) = false)
    (h1 : (trace 1).pollResult = .ok L1) (hL1 : start + 2 * b ≤ L1)
    (h1b : ∀ i : Nat, raised (blockResult (trace 1) (start + b) i) = false) :
    ∀ fuel : Nat,
      (runLoop cfg trace (fuel + 1 + 1 + 1) 0 (initState start)).1 = some .finishReached ∧
      (runLoop cfg trace (fuel + 1 + 1 + 1) 0 (initState start)).2.dispatchCount = 2 ∧
      (buildResult idx cfg start t
        (runLoop cfg trace (fuel + 1 + 1 + 1) 0 (initState start)).2).finishBlockNumber =
        start + 2 * b - 1 := by
  intro fuel
  have htime0 : ∀ lt : Int, timeReachedB cfg lt = false := by
    intro lt; simp [timeReachedB, htgt]
  have hfin0 : finishReachedB cfg start = false := by
    simp only [finishReachedB, hfin]
    rw [decide_eq_false_iff_not]
    omega
  have hw0 : dispatchWidth cfg (trace 0) start = b := by
    rw [dispatchWidth_eq cfg (trace 0) start L0 hfin0 (htime0 _) h0 (by omega)]
    rw [hbs]
    omega
  have hok0 : ∀ st ∈ batchSettles (trace 0) (dispatchWidth cfg (trace 0) start).toNat start,
      raised st.result = false := by
    intro st hst
    obtain ⟨i, hi, rfl⟩ := batchSettles_mem _ _ _ st hst
    exact h0b i
  obtain ⟨c2, hstep0⟩ := step_batch_ok cfg (trace 0) (initState start) L0 hfin0 (htime0 _) h0
    (by show start < L0; omega) hok0
  simp only [initState] at hstep0
  rw [hw0] at hstep0
  have hrun0 : runLoop cfg trace (fuel + 1 + 1 + 1) 0 (initState start) =
      runLoop cfg trace (fuel + 1 + 1) 1 ⟨c2, start + b, 1⟩ := by
    rw [runLoop_succ_next cfg trace (fuel + 1 + 1) 0 (initState start) _ hstep0]
  have hfin1 : finishReachedB cfg (start + b) = false := by
    simp only [finishReachedB, hfin]
    rw [decide_eq_false_iff_not]
    omega
  have hw1 : dispatchWidth cfg (trace 1) (start + b) = b := by
    rw [dispatchWidth_eq cfg (trace 1) (start + b) L1 hfin1 (htime0 _) h1 (by omega)]
    rw [hbs]
    omega
  have hok1 : ∀ st ∈ batchSettles (trace 1)
      (dispatchWidth cfg (trace 1) (start + b)).toNat (start + b),
      raised st.result = false := by
    intro st hst
    obtain ⟨i, hi, rfl⟩ := batchSettles_mem _ _ _ st hst
    exact h1b i
  obtain ⟨c3, hstep1⟩ := step_batch_ok cfg (trace 1)
    (⟨c2, start + b, 1⟩ : LoopState) L1 hfin1 (htime0 _) h1
    (by show start + b < L1; omega) hok1
  dsimp only at hstep1
  rw [hw1] at hstep1
  have hrun1 : runLoop cfg trace (fuel + 1 + 1) 1 ⟨c2, start + b, 1⟩ =
      runLoop cfg trace (fuel + 1) 2 ⟨c3, start + b + b, 2⟩ := by
    rw [runLoop_succ_next cfg trace (fuel + 1) 1 _ _ hstep1]
  have hfin2 : finishReachedB cfg (start + b + b) = true := by
    simp only [finishReachedB, hfin]
    rw [decide_eq_true_eq]
    omega
  have hstep2 := step_halt_finish cfg (trace 2) (⟨c3, start + b + b, 2⟩ : LoopState) hfin2
  have hrun2 : runLoop cfg trace (fuel + 1) 2 ⟨c3, start + b + b, 2⟩ =
      (some .finishReached, ⟨c3, start + b + b, 2⟩) :=
    runLoop_succ_halt cfg trace fuel 2 _ _ _ hstep2
  have hall : runLoop cfg trace (fuel + 1 + 1 + 1) 0 (initState start) =
      (some .finishReached, ⟨c3, start + b + b, 2⟩) := by
    rw [hrun0, hrun1, hrun2]
  refine ⟨by rw [hall], by rw [hall], ?_⟩
  rw [hall]
  show (⟨c3, start + b + b, 2⟩ : LoopState).curr - 1 = start + 2 * b - 1
  show start + b + b - 1 = start + 2 * b - 1
  omega

/-- Witness for C7: start 100, batch 2, finish 103, tip 200, empty
blocks; the loop dispatches twice and stops with final block 103. -/
theorem C7_two_batches_then_stop_witness :
    (runLoop cfgC7 traceC7 3 0 (initState 100)).1 = some .finishReached ∧
    (runLoop cfgC7 traceC7 3 0 (initState 100)).2.dispatchCount = 2 ∧
    (buildResult 0 cfgC7 100 0 (runLoop cfgC7 traceC7 3 0 (initState 100)).2).finishBlockNumber
      = 103 := by
  have h := C7_two_batches_then_stop cfgC7 traceC7 100 2 0 0 200 200
    (by decide) rfl (by decide) rfl rfl (by decide) (fun i => rfl)
    rfl (by decide) (fun i => rfl) 0
  refine ⟨h.1, h.2.1, ?_⟩
  have h3 := h.2.2
  norm_num at h3
  exact h3

end RpcTest
